import Mathlib

/-!
Verification development for the fault-source subsystem of awp-odc-os
(`src/io/Sources.cpp`): the rupture-catalog loader, the per-process
ownership resolver (`inisource`), and the per-timestep stress injector
(`odc::io::Sources::addsrc`).

Modelling conventions:
* C `int` / `int_pt` values are embedded as `Int`; loop counters and
  array lengths as `Nat`.
* C `float` sample and stress values are embedded as exact rationals
  (`ℚ`): the claims under study concern which formula and which stored
  sample each update uses, not floating-point rounding.
* The input file is a token stream (`List FTok`); `fread`/`fscanf`
  consume tokens from the front.  A failed `fopen` is the `none` case of
  an `Option (List FTok)` argument.  In the C code a failed `fread`
  leaves the current record unfilled and continues (a known
  desynchronisation defect); the embedding models the all-reads-succeed
  path and returns `none` when the stream is malformed.
* Out-parameter writes (`*SRCPROC = ...` etc., lines 258-266) are
  modelled by an `Option IniOut` component of the result: `none` means
  the function returned without writing any of the nine out-parameters.
* Diagnostics printed to stdout/stderr are modelled as `Diag` values.
-/

namespace AwpOdc

/-- Per-process sub-domain bounds, inclusive on both ends
(`nbx..nez`, Sources.cpp lines 94-99). -/
structure Bounds where
  nbx : Int
  nex : Int
  nby : Int
  ney : Int
  nbz : Int
  nez : Int
deriving DecidableEq

/-- Process-topology state read from `odc::parallel::Mpi`
(rank and per-axis start/range). -/
structure MpiCfg where
  m_rank : Int
  m_startX : Int
  m_rangeX : Int
  m_startY : Int
  m_rangeY : Int
  m_startZ : Int
  m_rangeZ : Int
deriving DecidableEq

/-- Bounds computation of Sources.cpp lines 94-99:
`nbx = startX + 2`, `nex = nbx + rangeX - 1`, likewise for y;
`nbz = startZ`, `nez = nbz + rangeZ - 1` (no ghost margin on z). -/
def boundsOf (c : MpiCfg) : Bounds :=
  { nbx := c.m_startX + 2
    nex := c.m_startX + 2 + c.m_rangeX - 1
    nby := c.m_startY + 2
    ney := c.m_startY + 2 + c.m_rangeY - 1
    nbz := c.m_startZ
    nez := c.m_startZ + c.m_rangeZ - 1 }

/-- One catalog record: global grid coordinates (`tpsrc[i*maxdim..+2]`)
and the six per-channel sample rows
(`taxx[i*READ_STEP..]`, ..., `taxy[i*READ_STEP..]`). -/
structure CatRec where
  x : Int
  y : Int
  z : Int
  axx : List ℚ
  ayy : List ℚ
  azz : List ℚ
  axz : List ℚ
  ayz : List ℚ
  axy : List ℚ
deriving DecidableEq

/-- File tokens: a binary/text source file is a stream of integers and
floats; `fread`/`fscanf` consume them from the front. -/
inductive FTok where
  | ival : Int → FTok
  | fval : ℚ → FTok
deriving DecidableEq

/-- Reads `n` integers from the stream (`fread(tmpsrc,sizeof(int),n,file)`
or `fscanf(file," %d ...")`); fails if the stream does not start with
`n` integer tokens. -/
def readInts : Nat → List FTok → Option (List Int × List FTok)
  | 0, s => some ([], s)
  | n + 1, FTok.ival v :: s =>
    match readInts n s with
    | some (vs, s1) => some (v :: vs, s1)
    | none => none
  | _ + 1, _ => none

/-- Reads `n` floats from the stream (`fread(tmpta,sizeof(float),n,file)`
or `fscanf(file," %f ...")`); fails if the stream does not start with
`n` float tokens. -/
def readFloats : Nat → List FTok → Option (List ℚ × List FTok)
  | 0, s => some ([], s)
  | n + 1, FTok.fval v :: s =>
    match readFloats n s with
    | some (vs, s1) => some (v :: vs, s1)
    | none => none
  | _ + 1, _ => none

/-- Binary-mode per-node read, Sources.cpp lines 157-174: one 3-int
triplet, then the full `NST*6` float block in a single `fread`; the
z-coordinate is stored flipped (`NZ+1-tmpsrc[2]`, line 164); of the block
only samples `j < READ_STEP` are kept, channel `c` of sample `j` being
`tmpta[j*6+c]` (lines 165-173). -/
def loadBinNode (NST READ_STEP : Nat) (NZ : Int) (s : List FTok) :
    Option (CatRec × List FTok) :=
  match readInts 3 s with
  | some ([x0, y0, z0], s1) =>
    match readFloats (NST * 6) s1 with
    | some (tmpta, s2) =>
      some ({ x := x0
              y := y0
              z := NZ + 1 - z0
              axx := (List.range READ_STEP).map fun j => tmpta.getD (j * 6) 0
              ayy := (List.range READ_STEP).map fun j => tmpta.getD (j * 6 + 1) 0
              azz := (List.range READ_STEP).map fun j => tmpta.getD (j * 6 + 2) 0
              axz := (List.range READ_STEP).map fun j => tmpta.getD (j * 6 + 3) 0
              ayz := (List.range READ_STEP).map fun j => tmpta.getD (j * 6 + 4) 0
              axy := (List.range READ_STEP).map fun j => tmpta.getD (j * 6 + 5) 0 }, s2)
    | none => none
  | _ => none

/-- Binary-mode loader loop (`for(i=0;i<NSRC;i++)`, lines 157-175). -/
def loadBin (NSRC NST READ_STEP : Nat) (NZ : Int) (s : List FTok) :
    Option (List CatRec × List FTok) :=
  match NSRC with
  | 0 => some ([], s)
  | n + 1 =>
    match loadBinNode NST READ_STEP NZ s with
    | some (r, s1) =>
      match loadBin n NST READ_STEP NZ s1 with
      | some (rs, s2) => some (r :: rs, s2)
      | none => none
    | none => none

/-- Text-mode sample loop, lines 186-192: `READ_STEP` rows of six floats
in channel order xx yy zz xz yz xy, accumulated per channel. -/
def loadTxtSamples : Nat → List FTok →
    Option ((List ℚ × List ℚ × List ℚ × List ℚ × List ℚ × List ℚ) × List FTok)
  | 0, s => some (([], [], [], [], [], []), s)
  | n + 1, s =>
    match readFloats 6 s with
    | some ([a, b, c, d, e, f], s1) =>
      match loadTxtSamples n s1 with
      | some ((xs, ys, zs, xzs, yzs, xys), s2) =>
        some ((a :: xs, b :: ys, c :: zs, d :: xzs, e :: yzs, f :: xys), s2)
      | none => none
    | _ => none

/-- Text-mode per-node read, lines 181-192: one 3-int triplet
(z stored flipped, `NZ+1-tmpsrc[2]`, line 184), then `READ_STEP` rows of
six floats. -/
def loadTxtNode (READ_STEP : Nat) (NZ : Int) (s : List FTok) :
    Option (CatRec × List FTok) :=
  match readInts 3 s with
  | some ([x0, y0, z0], s1) =>
    match loadTxtSamples READ_STEP s1 with
    | some ((xs, ys, zs, xzs, yzs, xys), s2) =>
      some ({ x := x0, y := y0, z := NZ + 1 - z0
              axx := xs, ayy := ys, azz := zs
              axz := xzs, ayz := yzs, axy := xys }, s2)
    | none => none
  | _ => none

/-- Text-mode loader loop (`for(i=0;i<NSRC;i++)`, lines 179-193). -/
def loadTxt (NSRC READ_STEP : Nat) (NZ : Int) (s : List FTok) :
    Option (List CatRec × List FTok) :=
  match NSRC with
  | 0 => some ([], s)
  | n + 1 =>
    match loadTxtNode READ_STEP NZ s with
    | some (r, s1) =>
      match loadTxt n READ_STEP NZ s1 with
      | some (rs, s2) => some (r :: rs, s2)
      | none => none
    | none => none

/-- Ownership membership test, lines 210-211 and 231-232: the six
inclusive comparisons, in source order. -/
def inBoundsRec (b : Bounds) (n : CatRec) : Bool :=
  decide (n.x ≥ b.nbx) && decide (n.x ≤ b.nex) &&
  decide (n.y ≥ b.nby) && decide (n.y ≤ b.ney) &&
  decide (n.z ≥ b.nbz) && decide (n.z ≤ b.nez)

/-- First pass, lines 207-216: starting from `srcproc = -1, npsrc = 0`,
each matching node sets `srcproc = rank` and increments `npsrc`. -/
def srcCount (rank : Int) (b : Bounds) (cat : List CatRec) : Int × Nat :=
  cat.foldl (fun acc n => if inBoundsRec b n then (rank, acc.2 + 1) else acc)
    (-1, 0)

/-- Coordinate remap of the copy pass, lines 234-236: subtract the
sub-domain lower bound and add 1 on each axis; the six sample rows are
copied unchanged (lines 237-245). -/
def remap (b : Bounds) (n : CatRec) : CatRec :=
  { x := n.x - b.nbx + 1
    y := n.y - b.nby + 1
    z := n.z - b.nbz + 1
    axx := n.axx, ayy := n.ayy, azz := n.azz
    axz := n.axz, ayz := n.ayz, axy := n.axy }

/-- Second pass, lines 229-248: re-runs the same membership test in the
same catalog order and appends the remapped record for each match (the
output position counter `k` of the C code is the length of the list
built so far). -/
def copyOwned (b : Bounds) : List CatRec → List CatRec
  | [] => []
  | n :: rest =>
    if inBoundsRec b n then remap b n :: copyOwned b rest else copyOwned b rest

/-- Out-parameter block of `inisource`, lines 258-266: `*SRCPROC`,
`*NPSRC` and the owned coordinate/sample tables (`*ptpsrc`, `*ptaxx`,
..., `*ptaxy`), here bundled per owned node.  An empty `owned` list
corresponds to the NULL pointers left when `npsrc == 0`. -/
structure IniOut where
  srcproc : Int
  npsrc : Nat
  owned : List CatRec
deriving DecidableEq

/-- Diagnostic messages printed by `inisource`. -/
inductive Diag where
  | cantOpenFile : String → Diag
  | ifault2NotImplemented : Diag
deriving DecidableEq

/-- Result of `inisource`: the `int` return value, the out-parameter
block (`none` when the function returned without writing the nine
out-parameters), and the diagnostics printed. -/
structure IniRet where
  ret : Int
  out : Option IniOut
  msgs : List Diag
deriving DecidableEq

/-- The `inisource` function, Sources.cpp lines 78-273.
`file = none` models a failed `fopen`.  The overall `Option` is the
modelling envelope: `none` marks executions the embedding does not cover
(a malformed token stream, whose C behaviour is the fread-desync defect,
or `IFAULT < 0`, where the C code tests an uninitialised `FILE*`). -/
def inisource (IFAULT NSRC : Int) (READ_STEP NST : Nat) (NZ : Int)
    (rank : Int) (b : Bounds) (INSRC : String) (file : Option (List FTok)) :
    Option IniRet :=
  if NSRC < 1 then some ⟨0, none, []⟩
  else if IFAULT ≤ 1 then
    if IFAULT = 1 ∨ IFAULT = 0 then
      match file with
      | none => some ⟨0, none, [Diag.cantOpenFile INSRC]⟩
      | some s =>
        match (if IFAULT = 1 then loadBin NSRC.toNat NST READ_STEP NZ s
               else loadTxt NSRC.toNat READ_STEP NZ s) with
        | none => none
        | some (cat, _) =>
          let p := srcCount rank b cat
          let owned := if 0 < p.2 then copyOwned b cat else []
          some ⟨0, some ⟨p.1, p.2, owned⟩, []⟩
    else none
  else if IFAULT = 2 then some ⟨1, none, [Diag.ifault2NotImplemented]⟩
  else some ⟨0, none, []⟩

/-- Member state of `odc::io::Sources` after construction: the flat
arrays `m_ptpSrc` (stride `maxdim`) and the six sample tables
(stride `READ_STEP`), plus `m_srcProc` and `m_nPsrc`. -/
structure Sources where
  m_srcProc : Int
  m_nPsrc : Nat
  m_ptpSrc : List Int
  m_ptAxx : List ℚ
  m_ptAyy : List ℚ
  m_ptAzz : List ℚ
  m_ptAxz : List ℚ
  m_ptAyz : List ℚ
  m_ptAxy : List ℚ
deriving DecidableEq

/-- Constructor semantics of `odc::io::Sources::Sources`
(lines 26-40): `inisource` writes through the nine out-parameter
pointers exactly when it reaches lines 258-266; on the early-return
paths the members keep their previous values.  The per-node records of
`IniOut.owned` are flattened into the stride-`maxdim` /
stride-`READ_STEP` member arrays. -/
def Sources.ofIni (prev : Sources) (r : IniRet) : Sources :=
  match r.out with
  | none => prev
  | some o =>
    { m_srcProc := o.srcproc
      m_nPsrc := o.npsrc
      m_ptpSrc := o.owned.flatMap fun n => [n.x, n.y, n.z]
      m_ptAxx := o.owned.flatMap fun n => n.axx
      m_ptAyy := o.owned.flatMap fun n => n.ayy
      m_ptAzz := o.owned.flatMap fun n => n.azz
      m_ptAxz := o.owned.flatMap fun n => n.axz
      m_ptAyz := o.owned.flatMap fun n => n.ayz
      m_ptAxy := o.owned.flatMap fun n => n.axy }

/-- Six-component stress field over abstract physical locations `Loc`
(the patch/position pair produced by the external `PatchDecomp`
collaborator). -/
structure StressField (Loc : Type) where
  xx : Loc → ℚ
  yy : Loc → ℚ
  zz : Loc → ℚ
  xz : Loc → ℚ
  yz : Loc → ℚ
  xy : Loc → ℚ

/-- Field location of owned node `j`, lines 314-321: the stored 1-based
local coordinates are decremented (`m_ptpSrc[j*dim+a]-1`) and passed to
the external global-to-patch/local lookup, abstracted as `g2l`. -/
def locOf {Loc : Type} (g2l : Int → Int → Int → Loc) (dim : Nat)
    (st : Sources) (j : Nat) : Loc :=
  g2l (st.m_ptpSrc.getD (j * dim) 0 - 1)
      (st.m_ptpSrc.getD (j * dim + 1) 0 - 1)
      (st.m_ptpSrc.getD (j * dim + 2) 0 - 1)

/-- Loop body of `addsrc`, lines 339-344: at node `j`'s field location,
each of the six stress components is decreased by `vtst` times that
channel's sample at table index `j*READ_STEP+i`. -/
def applyNode {Loc : Type} [DecidableEq Loc] (vtst : ℚ) (i READ_STEP dim : Nat)
    (g2l : Int → Int → Int → Loc) (st : Sources) (f : StressField Loc)
    (j : Nat) : StressField Loc :=
  let l := locOf g2l dim st j
  { xx := fun p => if p = l then f.xx p - vtst * st.m_ptAxx.getD (j * READ_STEP + i) 0 else f.xx p
    yy := fun p => if p = l then f.yy p - vtst * st.m_ptAyy.getD (j * READ_STEP + i) 0 else f.yy p
    zz := fun p => if p = l then f.zz p - vtst * st.m_ptAzz.getD (j * READ_STEP + i) 0 else f.zz p
    xz := fun p => if p = l then f.xz p - vtst * st.m_ptAxz.getD (j * READ_STEP + i) 0 else f.xz p
    yz := fun p => if p = l then f.yz p - vtst * st.m_ptAyz.getD (j * READ_STEP + i) 0 else f.yz p
    xy := fun p => if p = l then f.xy p - vtst * st.m_ptAxy.getD (j * READ_STEP + i) 0 else f.xy p }

/-- The injector `odc::io::Sources::addsrc`, lines 303-348:
`vtst = DT/(DH*DH*DH)` computed once, then the loop
`for(j=0; j<m_nPsrc; j++)` updates the field in place. -/
def Sources.addsrc {Loc : Type} [DecidableEq Loc] (st : Sources) (i : Nat)
    (DH DT : ℚ) (READ_STEP dim : Nat) (g2l : Int → Int → Int → Loc)
    (f : StressField Loc) : StressField Loc :=
  let vtst := DT / (DH * DH * DH)
  (List.range st.m_nPsrc).foldl (applyNode vtst i READ_STEP dim g2l st) f

/-- Token encoding of one binary-mode file record: a 3-int coordinate
triplet followed by a float block (of length `NST*6` in a well-formed
file). -/
def encodeBinRec (r : Int × Int × Int × List ℚ) : List FTok :=
  [FTok.ival r.1, FTok.ival r.2.1, FTok.ival r.2.2.1] ++ r.2.2.2.map FTok.fval

/-- Token encoding of a binary-mode source file with `recs.length`
records. -/
def encodeBin (recs : List (Int × Int × Int × List ℚ)) : List FTok :=
  (recs.map encodeBinRec).flatten

/-- Catalog record the binary loader produces from one file record:
z flipped to `NZ+1-z`, and per channel `c` the samples
`block[j*6+c]` for `j < READ_STEP` only. -/
def binDecode (READ_STEP : Nat) (NZ : Int) (r : Int × Int × Int × List ℚ) :
    CatRec :=
  { x := r.1
    y := r.2.1
    z := NZ + 1 - r.2.2.1
    axx := (List.range READ_STEP).map fun j => r.2.2.2.getD (j * 6) 0
    ayy := (List.range READ_STEP).map fun j => r.2.2.2.getD (j * 6 + 1) 0
    azz := (List.range READ_STEP).map fun j => r.2.2.2.getD (j * 6 + 2) 0
    axz := (List.range READ_STEP).map fun j => r.2.2.2.getD (j * 6 + 3) 0
    ayz := (List.range READ_STEP).map fun j => r.2.2.2.getD (j * 6 + 4) 0
    axy := (List.range READ_STEP).map fun j => r.2.2.2.getD (j * 6 + 5) 0 }

/-- One text-mode sample row: the six channel values
(xx, yy, zz, xz, yz, xy). -/
abbrev TxtRow := ℚ × ℚ × ℚ × ℚ × ℚ × ℚ

/-- Token encoding of one text-mode file record: a 3-int triplet
followed by the sample rows (of count `READ_STEP` in a well-formed
file), six floats each. -/
def encodeTxtRec (r : Int × Int × Int × List TxtRow) : List FTok :=
  [FTok.ival r.1, FTok.ival r.2.1, FTok.ival r.2.2.1] ++
  (r.2.2.2.map fun w =>
    [FTok.fval w.1, FTok.fval w.2.1, FTok.fval w.2.2.1,
     FTok.fval w.2.2.2.1, FTok.fval w.2.2.2.2.1, FTok.fval w.2.2.2.2.2]).flatten

/-- Token encoding of a text-mode source file. -/
def encodeTxt (recs : List (Int × Int × Int × List TxtRow)) : List FTok :=
  (recs.map encodeTxtRec).flatten

/-- Catalog record the text loader produces from one file record:
z flipped to `NZ+1-z`, the rows split into the six channel columns. -/
def txtDecode (NZ : Int) (r : Int × Int × Int × List TxtRow) : CatRec :=
  { x := r.1
    y := r.2.1
    z := NZ + 1 - r.2.2.1
    axx := r.2.2.2.map fun w => w.1
    ayy := r.2.2.2.map fun w => w.2.1
    azz := r.2.2.2.map fun w => w.2.2.1
    axz := r.2.2.2.map fun w => w.2.2.2.1
    ayz := r.2.2.2.map fun w => w.2.2.2.2.1
    axy := r.2.2.2.map fun w => w.2.2.2.2.2 }

/-! Round-trip lemmas for the token-stream readers and loaders. -/

theorem readInts_encode (l : List Int) (t : List FTok) :
    readInts l.length (l.map FTok.ival ++ t) = some (l, t) := by
  induction l with
  | nil => rfl
  | cons a l ih => simp [readInts, ih]

theorem readFloats_encode (l : List ℚ) (t : List FTok) :
    readFloats l.length (l.map FTok.fval ++ t) = some (l, t) := by
  induction l with
  | nil => rfl
  | cons a l ih => simp [readFloats, ih]

theorem loadBinNode_encode (NST READ_STEP : Nat) (NZ : Int)
    (r : Int × Int × Int × List ℚ) (t : List FTok)
    (h : r.2.2.2.length = NST * 6) :
    loadBinNode NST READ_STEP NZ (encodeBinRec r ++ t) =
      some (binDecode READ_STEP NZ r, t) := by
  obtain ⟨x, y, z, blk⟩ := r
  have hf : readFloats (NST * 6) (blk.map FTok.fval ++ t) = some (blk, t) := by
    rw [← h]; exact readFloats_encode blk t
  simp only [encodeBinRec] at *
  show loadBinNode NST READ_STEP NZ
      (FTok.ival x :: FTok.ival y :: FTok.ival z :: (blk.map FTok.fval ++ t)) = _
  simp [loadBinNode, readInts, hf, binDecode]

theorem loadBin_encode (NST READ_STEP : Nat) (NZ : Int)
    (recs : List (Int × Int × Int × List ℚ)) (t : List FTok)
    (h : ∀ r ∈ recs, r.2.2.2.length = NST * 6) :
    loadBin recs.length NST READ_STEP NZ (encodeBin recs ++ t) =
      some (recs.map (binDecode READ_STEP NZ), t) := by
  induction recs with
  | nil => rfl
  | cons r rs ih =>
    have hr : r.2.2.2.length = NST * 6 := h r (List.mem_cons_self r rs)
    have hrs : ∀ q ∈ rs, q.2.2.2.length = NST * 6 :=
      fun q hq => h q (List.mem_cons_of_mem r hq)
    have hs : encodeBin (r :: rs) ++ t = encodeBinRec r ++ (encodeBin rs ++ t) := by
      simp [encodeBin]
    rw [List.length_cons, hs]
    simp [loadBin, loadBinNode_encode NST READ_STEP NZ r _ hr, ih hrs]

theorem loadTxtSamples_encode (rows : List TxtRow) (t : List FTok) :
    loadTxtSamples rows.length
      ((rows.map fun w =>
        [FTok.fval w.1, FTok.fval w.2.1, FTok.fval w.2.2.1,
         FTok.fval w.2.2.2.1, FTok.fval w.2.2.2.2.1, FTok.fval w.2.2.2.2.2]).flatten ++ t) =
      some ((rows.map fun w => w.1, rows.map fun w => w.2.1,
             rows.map fun w => w.2.2.1, rows.map fun w => w.2.2.2.1,
             rows.map fun w => w.2.2.2.2.1, rows.map fun w => w.2.2.2.2.2), t) := by
  induction rows with
  | nil => rfl
  | cons w rows ih => simp [loadTxtSamples, readFloats, ih]

theorem loadTxtNode_encode (READ_STEP : Nat) (NZ : Int)
    (r : Int × Int × Int × List TxtRow) (t : List FTok)
    (h : r.2.2.2.length = READ_STEP) :
    loadTxtNode READ_STEP NZ (encodeTxtRec r ++ t) =
      some (txtDecode NZ r, t) := by
  obtain ⟨x, y, z, rows⟩ := r
  have hrows := loadTxtSamples_encode rows t
  simp only at h
  rw [h] at hrows
  simp only [encodeTxtRec] at *
  show loadTxtNode READ_STEP NZ
      (FTok.ival x :: FTok.ival y :: FTok.ival z ::
        ((rows.map fun w =>
          [FTok.fval w.1, FTok.fval w.2.1, FTok.fval w.2.2.1,
           FTok.fval w.2.2.2.1, FTok.fval w.2.2.2.2.1, FTok.fval w.2.2.2.2.2]).flatten ++ t)) = _
  simp [loadTxtNode, readInts, hrows, txtDecode]

theorem loadTxt_encode (READ_STEP : Nat) (NZ : Int)
    (recs : List (Int × Int × Int × List TxtRow)) (t : List FTok)
    (h : ∀ r ∈ recs, r.2.2.2.length = READ_STEP) :
    loadTxt recs.length READ_STEP NZ (encodeTxt recs ++ t) =
      some (recs.map (txtDecode NZ), t) := by
  induction recs with
  | nil => rfl
  | cons r rs ih =>
    have hr : r.2.2.2.length = READ_STEP := h r (List.mem_cons_self r rs)
    have hrs : ∀ q ∈ rs, q.2.2.2.length = READ_STEP :=
      fun q hq => h q (List.mem_cons_of_mem r hq)
    have hs : encodeTxt (r :: rs) ++ t = encodeTxtRec r ++ (encodeTxt rs ++ t) := by
      simp [encodeTxt]
    rw [List.length_cons, hs]
    simp [loadTxt, loadTxtNode_encode READ_STEP NZ r _ hr, ih hrs]

/-! Characterisation of the two ownership passes. -/

theorem srcCount_fold_snd (b : Bounds) (rank : Int) (cat : List CatRec)
    (acc : Int × Nat) :
    (cat.foldl (fun acc n => if inBoundsRec b n then (rank, acc.2 + 1) else acc) acc).2
      = acc.2 + cat.countP (fun n => inBoundsRec b n) := by
  induction cat generalizing acc with
  | nil => simp
  | cons n rest ih =>
    by_cases hn : inBoundsRec b n
    · simp [List.foldl_cons, List.countP_cons, hn, ih]; omega
    · simp [List.foldl_cons, List.countP_cons, hn, ih]

theorem srcCount_snd (rank : Int) (b : Bounds) (cat : List CatRec) :
    (srcCount rank b cat).2 = cat.countP (fun n => inBoundsRec b n) := by
  simp [srcCount, srcCount_fold_snd]

theorem srcCount_fold_fst (b : Bounds) (rank : Int) (cat : List CatRec)
    (acc : Int × Nat) :
    (cat.foldl (fun acc n => if inBoundsRec b n then (rank, acc.2 + 1) else acc) acc).1
      = if cat.any (fun n => inBoundsRec b n) then rank else acc.1 := by
  induction cat generalizing acc with
  | nil => simp
  | cons n rest ih =>
    by_cases hn : inBoundsRec b n
    · simp [List.foldl_cons, List.any_cons, hn, ih]
    · simp [List.foldl_cons, List.any_cons, hn, ih]

theorem srcCount_fst (rank : Int) (b : Bounds) (cat : List CatRec) :
    (srcCount rank b cat).1
      = if cat.any (fun n => inBoundsRec b n) then rank else -1 := by
  simp [srcCount, srcCount_fold_fst]

theorem copyOwned_eq_filter_map (b : Bounds) (cat : List CatRec) :
    copyOwned b cat = (cat.filter (fun n => inBoundsRec b n)).map (remap b) := by
  induction cat with
  | nil => rfl
  | cons n rest ih =>
    by_cases hn : inBoundsRec b n
    · simp [copyOwned, List.filter_cons, hn, ih]
    · simp [copyOwned, List.filter_cons, hn, ih]

theorem inBoundsRec_iff (b : Bounds) (n : CatRec) :
    inBoundsRec b n = true ↔
      (b.nbx ≤ n.x ∧ n.x ≤ b.nex ∧ b.nby ≤ n.y ∧ n.y ≤ b.ney ∧
       b.nbz ≤ n.z ∧ n.z ≤ b.nez) := by
  simp [inBoundsRec, ge_iff_le]
  tauto

/-! Accumulation behaviour of the injector loop. -/

theorem foldl_applyNode_at {Loc : Type} [DecidableEq Loc] (v : ℚ)
    (i RS dim : Nat) (g2l : Int → Int → Int → Loc) (st : Sources)
    (l : List Nat) (f : StressField Loc) (p : Loc) :
    ((l.foldl (applyNode v i RS dim g2l st) f).xx p
        = f.xx p - v * ((l.filter fun k => decide (p = locOf g2l dim st k)).map
            fun k => st.m_ptAxx.getD (k * RS + i) 0).sum) ∧
    ((l.foldl (applyNode v i RS dim g2l st) f).yy p
        = f.yy p - v * ((l.filter fun k => decide (p = locOf g2l dim st k)).map
            fun k => st.m_ptAyy.getD (k * RS + i) 0).sum) ∧
    ((l.foldl (applyNode v i RS dim g2l st) f).zz p
        = f.zz p - v * ((l.filter fun k => decide (p = locOf g2l dim st k)).map
            fun k => st.m_ptAzz.getD (k * RS + i) 0).sum) ∧
    ((l.foldl (applyNode v i RS dim g2l st) f).xz p
        = f.xz p - v * ((l.filter fun k => decide (p = locOf g2l dim st k)).map
            fun k => st.m_ptAxz.getD (k * RS + i) 0).sum) ∧
    ((l.foldl (applyNode v i RS dim g2l st) f).yz p
        = f.yz p - v * ((l.filter fun k => decide (p = locOf g2l dim st k)).map
            fun k => st.m_ptAyz.getD (k * RS + i) 0).sum) ∧
    ((l.foldl (applyNode v i RS dim g2l st) f).xy p
        = f.xy p - v * ((l.filter fun k => decide (p = locOf g2l dim st k)).map
            fun k => st.m_ptAxy.getD (k * RS + i) 0).sum) := by
  induction l generalizing f with
  | nil => simp
  | cons k l ih =>
    obtain ⟨ih1, ih2, ih3, ih4, ih5, ih6⟩ := ih (applyNode v i RS dim g2l st f k)
    have hxx : (applyNode v i RS dim g2l st f k).xx p
        = if p = locOf g2l dim st k then f.xx p - v * st.m_ptAxx.getD (k * RS + i) 0
          else f.xx p := rfl
    have hyy : (applyNode v i RS dim g2l st f k).yy p
        = if p = locOf g2l dim st k then f.yy p - v * st.m_ptAyy.getD (k * RS + i) 0
          else f.yy p := rfl
    have hzz : (applyNode v i RS dim g2l st f k).zz p
        = if p = locOf g2l dim st k then f.zz p - v * st.m_ptAzz.getD (k * RS + i) 0
          else f.zz p := rfl
    have hxz : (applyNode v i RS dim g2l st f k).xz p
        = if p = locOf g2l dim st k then f.xz p - v * st.m_ptAxz.getD (k * RS + i) 0
          else f.xz p := rfl
    have hyz : (applyNode v i RS dim g2l st f k).yz p
        = if p = locOf g2l dim st k then f.yz p - v * st.m_ptAyz.getD (k * RS + i) 0
          else f.yz p := rfl
    have hxy : (applyNode v i RS dim g2l st f k).xy p
        = if p = locOf g2l dim st k then f.xy p - v * st.m_ptAxy.getD (k * RS + i) 0
          else f.xy p := rfl
    by_cases hk : p = locOf g2l dim st k
    · have hfk : (k :: l).filter (fun m => decide (p = locOf g2l dim st m))
          = k :: l.filter (fun m => decide (p = locOf g2l dim st m)) := by
        simp [List.filter_cons, hk]
      refine ⟨?_, ?_, ?_, ?_, ?_, ?_⟩
      · rw [List.foldl_cons, ih1, hxx, if_pos hk, hfk, List.map_cons, List.sum_cons]; ring
      · rw [List.foldl_cons, ih2, hyy, if_pos hk, hfk, List.map_cons, List.sum_cons]; ring
      · rw [List.foldl_cons, ih3, hzz, if_pos hk, hfk, List.map_cons, List.sum_cons]; ring
      · rw [List.foldl_cons, ih4, hxz, if_pos hk, hfk, List.map_cons, List.sum_cons]; ring
      · rw [List.foldl_cons, ih5, hyz, if_pos hk, hfk, List.map_cons, List.sum_cons]; ring
      · rw [List.foldl_cons, ih6, hxy, if_pos hk, hfk, List.map_cons, List.sum_cons]; ring
    · have hfk : (k :: l).filter (fun m => decide (p = locOf g2l dim st m))
          = l.filter (fun m => decide (p = locOf g2l dim st m)) := by
        simp [List.filter_cons, hk]
      refine ⟨?_, ?_, ?_, ?_, ?_, ?_⟩
      · rw [List.foldl_cons, ih1, hxx, if_neg hk, hfk]
      · rw [List.foldl_cons, ih2, hyy, if_neg hk, hfk]
      · rw [List.foldl_cons, ih3, hzz, if_neg hk, hfk]
      · rw [List.foldl_cons, ih4, hxz, if_neg hk, hfk]
      · rw [List.foldl_cons, ih5, hyz, if_neg hk, hfk]
      · rw [List.foldl_cons, ih6, hxy, if_neg hk, hfk]

theorem filter_range_eq_singleton (n j : Nat) (q : Nat → Bool) (hj : j < n)
    (h : ∀ k, k < n → (q k = true ↔ k = j)) :
    (List.range n).filter q = [j] := by
  induction n with
  | zero => omega
  | succ n ih =>
    rw [List.range_succ, List.filter_append]
    rcases Nat.lt_or_ge j n with hjn | hjn
    · have hqn : q n = false := by
        rcases Bool.eq_false_or_eq_true (q n) with ht | hf
        · exact absurd ((h n (Nat.lt_succ_self n)).1 ht) (by omega)
        · exact hf
      rw [ih hjn (fun k hk => h k (Nat.lt_succ_of_lt hk))]
      simp [hqn]
    · have hjeq : j = n := by omega
      have hnil : (List.range n).filter q = [] := by
        apply List.filter_eq_nil_iff.mpr
        intro a ha
        have han : a < n := List.mem_range.mp ha
        intro hqa
        exact absurd ((h a (Nat.lt_succ_of_lt han)).1 hqa) (by omega)
      have hqn : q n = true := (h n (Nat.lt_succ_self n)).2 hjeq.symm
      rw [hnil]
      simp [hqn, hjeq]

/-! Disjoint covers own each node at most once. -/

theorem countP_owned_of_pairwise_disjoint (procs : List Bounds) (p : CatRec)
    (hdisj : procs.Pairwise
      (fun b1 b2 => ∀ n, ¬(inBoundsRec b1 n = true ∧ inBoundsRec b2 n = true))) :
    procs.countP (fun b => inBoundsRec b p)
      = if procs.any (fun b => inBoundsRec b p) then 1 else 0 := by
  induction procs with
  | nil => simp
  | cons b rest ih =>
    rw [List.pairwise_cons] at hdisj
    obtain ⟨hb, hrest⟩ := hdisj
    by_cases hbp : inBoundsRec b p
    · have hzero : rest.countP (fun q => inBoundsRec q p) = 0 := by
        apply List.countP_eq_zero.mpr
        intro q hq hqp
        exact hb q hq p ⟨hbp, hqp⟩
      simp [List.countP_cons, List.any_cons, hbp, hzero]
    · simp [List.countP_cons, List.any_cons, hbp, ih hrest]

/-! Claim C1. -/

/-- C1: for every owned node `j` whose field location is shared with no
other owned node, and for each of the six stress channels independently,
`addsrc` at window position `i` replaces the stress component value `S`
at that node's field location with `S - (DT/DH^3) * a[j*READ_STEP+i]`,
where `a` is that channel's stored sample table; no other formula and no
other channel's sample is used. -/
theorem addsrc_updates_each_channel {Loc : Type} [DecidableEq Loc]
    (st : Sources) (i READ_STEP dim : Nat) (DH DT : ℚ)
    (g2l : Int → Int → Int → Loc) (f : StressField Loc) (j : Nat)
    (hj : j < st.m_nPsrc)
    (hsep : ∀ k, k < st.m_nPsrc →
      locOf g2l dim st k = locOf g2l dim st j → k = j) :
    ((st.addsrc i DH DT READ_STEP dim g2l f).xx (locOf g2l dim st j)
        = f.xx (locOf g2l dim st j)
          - DT / DH ^ 3 * st.m_ptAxx.getD (j * READ_STEP + i) 0) ∧
    ((st.addsrc i DH DT READ_STEP dim g2l f).yy (locOf g2l dim st j)
        = f.yy (locOf g2l dim st j)
          - DT / DH ^ 3 * st.m_ptAyy.getD (j * READ_STEP + i) 0) ∧
    ((st.addsrc i DH DT READ_STEP dim g2l f).zz (locOf g2l dim st j)
        = f.zz (locOf g2l dim st j)
          - DT / DH ^ 3 * st.m_ptAzz.getD (j * READ_STEP + i) 0) ∧
    ((st.addsrc i DH DT READ_STEP dim g2l f).xz (locOf g2l dim st j)
        = f.xz (locOf g2l dim st j)
          - DT / DH ^ 3 * st.m_ptAxz.getD (j * READ_STEP + i) 0) ∧
    ((st.addsrc i DH DT READ_STEP dim g2l f).yz (locOf g2l dim st j)
        = f.yz (locOf g2l dim st j)
          - DT / DH ^ 3 * st.m_ptAyz.getD (j * READ_STEP + i) 0) ∧
    ((st.addsrc i DH DT READ_STEP dim g2l f).xy (locOf g2l dim st j)
        = f.xy (locOf g2l dim st j)
          - DT / DH ^ 3 * st.m_ptAxy.getD (j * READ_STEP + i) 0) := by
  have key := foldl_applyNode_at (DT / (DH * DH * DH)) i READ_STEP dim g2l st
    (List.range st.m_nPsrc) f (locOf g2l dim st j)
  have hfil : (List.range st.m_nPsrc).filter
      (fun k => decide (locOf g2l dim st j = locOf g2l dim st k)) = [j] := by
    apply filter_range_eq_singleton _ _ _ hj
    intro k hk
    constructor
    · intro hq
      exact hsep k hk (of_decide_eq_true hq).symm
    · intro hkj
      subst hkj
      simp
  rw [hfil] at key
  obtain ⟨k1, k2, k3, k4, k5, k6⟩ := key
  have hv : DT / (DH * DH * DH) = DT / DH ^ 3 := by ring_nf
  refine ⟨?_, ?_, ?_, ?_, ?_, ?_⟩
  · simp only [Sources.addsrc]; rw [k1, hv]; simp
  · simp only [Sources.addsrc]; rw [k2, hv]; simp
  · simp only [Sources.addsrc]; rw [k3, hv]; simp
  · simp only [Sources.addsrc]; rw [k4, hv]; simp
  · simp only [Sources.addsrc]; rw [k5, hv]; simp
  · simp only [Sources.addsrc]; rw [k6, hv]; simp

/-- Concrete one-node `Sources` state used to witness the injector
claims: node at 1-based local coordinates (5,6,7), window length 1,
channel samples 2,3,4,5,6,7. -/
def stW : Sources :=
  { m_srcProc := 0
    m_nPsrc := 1
    m_ptpSrc := [5, 6, 7]
    m_ptAxx := [2]
    m_ptAyy := [3]
    m_ptAzz := [4]
    m_ptAxz := [5]
    m_ptAyz := [6]
    m_ptAxy := [7] }

/-- Concrete location map for the injector witness. -/
def g2lW : Int → Int → Int → Int := fun a _ _ => a

/-- Concrete initial stress field for the injector witness. -/
def fW : StressField Int :=
  { xx := fun _ => 10, yy := fun _ => 20, zz := fun _ => 30
    xz := fun _ => 40, yz := fun _ => 50, xy := fun _ => 60 }

/-- Witness for C1 at the concrete one-node state `stW`, with
`DH = 1`, `DT = 2`, window position 0. -/
theorem addsrc_updates_each_channel_witness :
    (0 < stW.m_nPsrc) ∧
    (((stW.addsrc 0 1 2 1 3 g2lW fW).xx (locOf g2lW 3 stW 0)
        = fW.xx (locOf g2lW 3 stW 0) - 2 / 1 ^ 3 * stW.m_ptAxx.getD (0 * 1 + 0) 0) ∧
     ((stW.addsrc 0 1 2 1 3 g2lW fW).yy (locOf g2lW 3 stW 0)
        = fW.yy (locOf g2lW 3 stW 0) - 2 / 1 ^ 3 * stW.m_ptAyy.getD (0 * 1 + 0) 0) ∧
     ((stW.addsrc 0 1 2 1 3 g2lW fW).zz (locOf g2lW 3 stW 0)
        = fW.zz (locOf g2lW 3 stW 0) - 2 / 1 ^ 3 * stW.m_ptAzz.getD (0 * 1 + 0) 0) ∧
     ((stW.addsrc 0 1 2 1 3 g2lW fW).xz (locOf g2lW 3 stW 0)
        = fW.xz (locOf g2lW 3 stW 0) - 2 / 1 ^ 3 * stW.m_ptAxz.getD (0 * 1 + 0) 0) ∧
     ((stW.addsrc 0 1 2 1 3 g2lW fW).yz (locOf g2lW 3 stW 0)
        = fW.yz (locOf g2lW 3 stW 0) - 2 / 1 ^ 3 * stW.m_ptAyz.getD (0 * 1 + 0) 0) ∧
     ((stW.addsrc 0 1 2 1 3 g2lW fW).xy (locOf g2lW 3 stW 0)
        = fW.xy (locOf g2lW 3 stW 0) - 2 / 1 ^ 3 * stW.m_ptAxy.getD (0 * 1 + 0) 0)) :=
  ⟨by decide,
   addsrc_updates_each_channel stW 0 1 3 1 2 g2lW fW 0 (by decide)
     (fun k hk _ => by
       have h1 : stW.m_nPsrc = 1 := rfl
       rw [h1] at hk
       omega)⟩

/-! Claims C2 and C3. -/

/-- C2: the resolver counts a catalog node as owned iff all six
inclusive bound comparisons hold; and if no catalog node passes the
test, the ownership flag keeps the unowned value `-1` and the
owned-record output arrays are left empty. -/
theorem resolver_counts_iff_bounds_and_empty_when_unowned
    (rank : Int) (b : Bounds) (cat : List CatRec)
    (NSRC : Int) (READ_STEP NST : Nat) (NZ : Int) (INSRC : String)
    (s rest : List FTok)
    (hn : 1 ≤ NSRC)
    (hload : loadTxt NSRC.toNat READ_STEP NZ s = some (cat, rest)) :
    ((srcCount rank b cat).2 = cat.countP (fun n => inBoundsRec b n) ∧
     ∀ n : CatRec, inBoundsRec b n = true ↔
       (b.nbx ≤ n.x ∧ n.x ≤ b.nex ∧ b.nby ≤ n.y ∧ n.y ≤ b.ney ∧
        b.nbz ≤ n.z ∧ n.z ≤ b.nez)) ∧
    ((∀ n ∈ cat, inBoundsRec b n = false) →
      inisource 0 NSRC READ_STEP NST NZ rank b INSRC (some s)
        = some ⟨0, some ⟨-1, 0, []⟩, []⟩) := by
  refine ⟨⟨srcCount_snd rank b cat, fun n => inBoundsRec_iff b n⟩, ?_⟩
  intro hall
  have hlt : ¬(NSRC < 1) := by omega
  have hc2 : (srcCount rank b cat).2 = 0 := by
    rw [srcCount_snd]
    exact List.countP_eq_zero.mpr (fun a ha => by simp [hall a ha])
  have hany : cat.any (fun n => inBoundsRec b n) = false := by
    simp only [List.any_eq_false]
    intro a ha
    simp [hall a ha]
  have hc1 : (srcCount rank b cat).1 = -1 := by
    rw [srcCount_fst, hany]
    simp
  simp only [inisource, if_neg hlt]
  norm_num
  rw [hload]
  simp [hc1, hc2]

/-- Witness for C2: a one-node catalog whose unique node (at global
coordinates (50,50,50)) lies outside the sub-domain `[1,10]^3`. -/
theorem resolver_counts_iff_bounds_and_empty_when_unowned_witness :
    (1 : Int) ≤ 1 ∧
    loadTxt (1 : Int).toNat 0 9 [FTok.ival 50, FTok.ival 50, FTok.ival (-40)]
      = some ([⟨50, 50, 50, [], [], [], [], [], []⟩], []) ∧
    (((srcCount 3 ⟨1, 10, 1, 10, 1, 10⟩
         [⟨50, 50, 50, [], [], [], [], [], []⟩]).2
        = List.countP (fun n => inBoundsRec ⟨1, 10, 1, 10, 1, 10⟩ n)
            [⟨50, 50, 50, [], [], [], [], [], []⟩] ∧
      ∀ n : CatRec, inBoundsRec ⟨1, 10, 1, 10, 1, 10⟩ n = true ↔
        ((1 : Int) ≤ n.x ∧ n.x ≤ 10 ∧ (1 : Int) ≤ n.y ∧ n.y ≤ 10 ∧
         (1 : Int) ≤ n.z ∧ n.z ≤ 10)) ∧
     ((∀ n ∈ [(⟨50, 50, 50, [], [], [], [], [], []⟩ : CatRec)],
         inBoundsRec ⟨1, 10, 1, 10, 1, 10⟩ n = false) →
       inisource 0 1 0 0 9 3 ⟨1, 10, 1, 10, 1, 10⟩ "src"
           (some [FTok.ival 50, FTok.ival 50, FTok.ival (-40)])
         = some ⟨0, some ⟨-1, 0, []⟩, []⟩)) :=
  ⟨by norm_num, by decide,
   resolver_counts_iff_bounds_and_empty_when_unowned 3 ⟨1, 10, 1, 10, 1, 10⟩
     [⟨50, 50, 50, [], [], [], [], [], []⟩] 1 0 0 9 "src"
     [FTok.ival 50, FTok.ival 50, FTok.ival (-40)] []
     (by norm_num) (by decide)⟩

/-- C3: the copy pass produces exactly as many records as the count
pass, preserves the catalog's first-match order (it is the filtered
catalog, in order, mapped through `remap`), and `remap` stores local
coordinate `g - b + 1` on each axis while copying the six per-channel
sample rows unchanged. -/
theorem copy_pass_matches_count_order_and_remap
    (rank : Int) (b : Bounds) (cat : List CatRec) :
    (copyOwned b cat).length = (srcCount rank b cat).2 ∧
    copyOwned b cat = (cat.filter (fun n => inBoundsRec b n)).map (remap b) ∧
    ∀ n : CatRec, remap b n =
      { x := n.x - b.nbx + 1, y := n.y - b.nby + 1, z := n.z - b.nbz + 1
        axx := n.axx, ayy := n.ayy, azz := n.azz
        axz := n.axz, ayz := n.ayz, axy := n.axy } := by
  refine ⟨?_, copyOwned_eq_filter_map b cat, fun n => rfl⟩
  rw [copyOwned_eq_filter_map, List.length_map, srcCount_snd,
    List.countP_eq_length_filter]

/-! Claims C4 and C6. -/

theorem encodeBin_length (NST : Nat) (recs : List (Int × Int × Int × List ℚ))
    (h : ∀ r ∈ recs, r.2.2.2.length = NST * 6) :
    (encodeBin recs).length = recs.length * (3 + NST * 6) := by
  induction recs with
  | nil => simp [encodeBin]
  | cons r rs ih =>
    have hr : r.2.2.2.length = NST * 6 := h r (List.mem_cons_self r rs)
    have hrs : ∀ q ∈ rs, q.2.2.2.length = NST * 6 :=
      fun q hq => h q (List.mem_cons_of_mem r hq)
    simp [encodeBin, encodeBinRec, hr] at *
    rw [ih hrs]
    ring

/-- C4: in both supported load modes (binary `IFAULT=1` and text
`IFAULT=0`) the z coordinate of every catalog record is stored as
`NZ + 1 - z_raw`, applied exactly once at load time (the only later
coordinate transformation, the resolver's remap, is the plain shift
`z - nbz + 1`); in particular a record with raw `z = 1` is stored with
`z = NZ`. -/
theorem zflip_once_at_load_both_modes
    (NST READ_STEP : Nat) (NZ : Int)
    (brecs : List (Int × Int × Int × List ℚ))
    (trecs : List (Int × Int × Int × List TxtRow))
    (t u : List FTok)
    (r1 : Int × Int × Int × List ℚ) (r2 : Int × Int × Int × List TxtRow)
    (b : Bounds) (n : CatRec)
    (hb : ∀ r ∈ brecs, r.2.2.2.length = NST * 6)
    (ht : ∀ r ∈ trecs, r.2.2.2.length = READ_STEP) :
    loadBin brecs.length NST READ_STEP NZ (encodeBin brecs ++ t)
      = some (brecs.map (binDecode READ_STEP NZ), t) ∧
    loadTxt trecs.length READ_STEP NZ (encodeTxt trecs ++ u)
      = some (trecs.map (txtDecode NZ), u) ∧
    (binDecode READ_STEP NZ r1).z = NZ + 1 - r1.2.2.1 ∧
    (txtDecode NZ r2).z = NZ + 1 - r2.2.2.1 ∧
    (r1.2.2.1 = 1 → (binDecode READ_STEP NZ r1).z = NZ) ∧
    (r2.2.2.1 = 1 → (txtDecode NZ r2).z = NZ) ∧
    (remap b n).z = n.z - b.nbz + 1 := by
  refine ⟨loadBin_encode NST READ_STEP NZ brecs t hb,
    loadTxt_encode READ_STEP NZ trecs u ht, rfl, rfl, ?_, ?_, rfl⟩
  · intro h1
    show NZ + 1 - r1.2.2.1 = NZ
    omega
  · intro h2
    show NZ + 1 - r2.2.2.1 = NZ
    omega

/-- Witness for C4: one binary record and one text record, both with raw
`z = 1`, total z-extent `NZ = 9`, `NST = 1`, `READ_STEP = 1`. -/
theorem zflip_once_at_load_both_modes_witness :
    (∀ r ∈ [((4 : Int), (5 : Int), (1 : Int), ([0, 0, 0, 0, 0, 0] : List ℚ))],
       r.2.2.2.length = 1 * 6) ∧
    (∀ r ∈ [((4 : Int), (5 : Int), (1 : Int),
              ([((1 : ℚ), (2 : ℚ), (3 : ℚ), (4 : ℚ), (5 : ℚ), (6 : ℚ))] : List TxtRow))],
       r.2.2.2.length = 1) ∧
    (loadBin [((4 : Int), (5 : Int), (1 : Int), ([0, 0, 0, 0, 0, 0] : List ℚ))].length 1 1 9
        (encodeBin [(4, 5, 1, [0, 0, 0, 0, 0, 0])] ++ [])
      = some ([(4, 5, 1, ([0, 0, 0, 0, 0, 0] : List ℚ))].map (binDecode 1 9), []) ∧
     loadTxt [((4 : Int), (5 : Int), (1 : Int), ([(1, 2, 3, 4, 5, 6)] : List TxtRow))].length 1 9
        (encodeTxt [(4, 5, 1, [(1, 2, 3, 4, 5, 6)])] ++ [])
      = some ([((4 : Int), (5 : Int), (1 : Int), ([(1, 2, 3, 4, 5, 6)] : List TxtRow))].map (txtDecode 9), []) ∧
     (binDecode 1 9 (4, 5, 1, [0, 0, 0, 0, 0, 0])).z = 9 + 1 - (4, (5 : Int), (1 : Int), ([0, 0, 0, 0, 0, 0] : List ℚ)).2.2.1 ∧
     (txtDecode 9 (4, 5, 1, [(1, 2, 3, 4, 5, 6)])).z = 9 + 1 - ((4 : Int), (5 : Int), (1 : Int), ([(1, 2, 3, 4, 5, 6)] : List TxtRow)).2.2.1 ∧
     (((4 : Int), (5 : Int), (1 : Int), ([0, 0, 0, 0, 0, 0] : List ℚ)).2.2.1 = 1 →
       (binDecode 1 9 (4, 5, 1, [0, 0, 0, 0, 0, 0])).z = 9) ∧
     (((4 : Int), (5 : Int), (1 : Int), ([(1, 2, 3, 4, 5, 6)] : List TxtRow)).2.2.1 = 1 →
       (txtDecode 9 (4, 5, 1, [(1, 2, 3, 4, 5, 6)])).z = 9) ∧
     (remap ⟨1, 10, 1, 10, 1, 10⟩ ⟨2, 3, 4, [], [], [], [], [], []⟩).z
       = (⟨2, 3, 4, [], [], [], [], [], []⟩ : CatRec).z - (⟨1, 10, 1, 10, 1, 10⟩ : Bounds).nbz + 1) :=
  ⟨by decide, by decide,
   zflip_once_at_load_both_modes 1 1 9
     [(4, 5, 1, [0, 0, 0, 0, 0, 0])] [(4, 5, 1, [(1, 2, 3, 4, 5, 6)])] [] []
     (4, 5, 1, [0, 0, 0, 0, 0, 0]) (4, 5, 1, [(1, 2, 3, 4, 5, 6)])
     ⟨1, 10, 1, 10, 1, 10⟩ ⟨2, 3, 4, [], [], [], [], [], []⟩
     (by decide) (by decide)⟩

/-- C6: in binary mode the loader consumes, per node, one 3-integer
triplet plus the full `NST*6`-float block (the encoded file is exactly
`NSRC * (3 + NST*6)` tokens long and the final stream position is past
all of them), but retains only the first `READ_STEP` samples of each of
the six channels, channel `c` of sample `j` being `block[j*6+c]`. -/
theorem binary_loader_reads_full_block_keeps_window
    (NST READ_STEP : Nat) (NZ : Int)
    (recs : List (Int × Int × Int × List ℚ)) (t : List FTok)
    (r : Int × Int × Int × List ℚ)
    (hb : ∀ q ∈ recs, q.2.2.2.length = NST * 6) :
    loadBin recs.length NST READ_STEP NZ (encodeBin recs ++ t)
      = some (recs.map (binDecode READ_STEP NZ), t) ∧
    (encodeBin recs).length = recs.length * (3 + NST * 6) ∧
    (binDecode READ_STEP NZ r).axx
      = (List.range READ_STEP).map (fun j => r.2.2.2.getD (j * 6) 0) ∧
    (binDecode READ_STEP NZ r).ayy
      = (List.range READ_STEP).map (fun j => r.2.2.2.getD (j * 6 + 1) 0) ∧
    (binDecode READ_STEP NZ r).azz
      = (List.range READ_STEP).map (fun j => r.2.2.2.getD (j * 6 + 2) 0) ∧
    (binDecode READ_STEP NZ r).axz
      = (List.range READ_STEP).map (fun j => r.2.2.2.getD (j * 6 + 3) 0) ∧
    (binDecode READ_STEP NZ r).ayz
      = (List.range READ_STEP).map (fun j => r.2.2.2.getD (j * 6 + 4) 0) ∧
    (binDecode READ_STEP NZ r).axy
      = (List.range READ_STEP).map (fun j => r.2.2.2.getD (j * 6 + 5) 0) ∧
    (binDecode READ_STEP NZ r).axx.length = READ_STEP :=
  ⟨loadBin_encode NST READ_STEP NZ recs t hb,
   encodeBin_length NST recs hb, rfl, rfl, rfl, rfl, rfl, rfl,
   by simp [binDecode]⟩

/-- Witness for C6: one node, `NST = 2`, `READ_STEP = 1`: the loader
consumes all `3 + 12` tokens but keeps only sample 0 of each channel. -/
theorem binary_loader_reads_full_block_keeps_window_witness :
    (∀ q ∈ [((4 : Int), (5 : Int), (1 : Int),
              ([1, 2, 3, 4, 5, 6, 7, 8, 9, 10, 11, 12] : List ℚ))],
       q.2.2.2.length = 2 * 6) ∧
    (loadBin [((4 : Int), (5 : Int), (1 : Int),
              ([1, 2, 3, 4, 5, 6, 7, 8, 9, 10, 11, 12] : List ℚ))].length 2 1 9
        (encodeBin [(4, 5, 1, [1, 2, 3, 4, 5, 6, 7, 8, 9, 10, 11, 12])] ++ [FTok.ival 77])
      = some ([((4 : Int), (5 : Int), (1 : Int),
              ([1, 2, 3, 4, 5, 6, 7, 8, 9, 10, 11, 12] : List ℚ))].map (binDecode 1 9),
              [FTok.ival 77]) ∧
     (encodeBin [((4 : Int), (5 : Int), (1 : Int),
              ([1, 2, 3, 4, 5, 6, 7, 8, 9, 10, 11, 12] : List ℚ))]).length = 1 * (3 + 2 * 6) ∧
     (binDecode 1 9 (4, 5, 1, [1, 2, 3, 4, 5, 6, 7, 8, 9, 10, 11, 12])).axx
       = (List.range 1).map (fun j =>
           (((4 : Int), (5 : Int), (1 : Int),
             ([1, 2, 3, 4, 5, 6, 7, 8, 9, 10, 11, 12] : List ℚ))).2.2.2.getD (j * 6) 0) ∧
     (binDecode 1 9 (4, 5, 1, [1, 2, 3, 4, 5, 6, 7, 8, 9, 10, 11, 12])).ayy
       = (List.range 1).map (fun j =>
           (((4 : Int), (5 : Int), (1 : Int),
             ([1, 2, 3, 4, 5, 6, 7, 8, 9, 10, 11, 12] : List ℚ))).2.2.2.getD (j * 6 + 1) 0) ∧
     (binDecode 1 9 (4, 5, 1, [1, 2, 3, 4, 5, 6, 7, 8, 9, 10, 11, 12])).azz
       = (List.range 1).map (fun j =>
           (((4 : Int), (5 : Int), (1 : Int),
             ([1, 2, 3, 4, 5, 6, 7, 8, 9, 10, 11, 12] : List ℚ))).2.2.2.getD (j * 6 + 2) 0) ∧
     (binDecode 1 9 (4, 5, 1, [1, 2, 3, 4, 5, 6, 7, 8, 9, 10, 11, 12])).axz
       = (List.range 1).map (fun j =>
           (((4 : Int), (5 : Int), (1 : Int),
             ([1, 2, 3, 4, 5, 6, 7, 8, 9, 10, 11, 12] : List ℚ))).2.2.2.getD (j * 6 + 3) 0) ∧
     (binDecode 1 9 (4, 5, 1, [1, 2, 3, 4, 5, 6, 7, 8, 9, 10, 11, 12])).ayz
       = (List.range 1).map (fun j =>
           (((4 : Int), (5 : Int), (1 : Int),
             ([1, 2, 3, 4, 5, 6, 7, 8, 9, 10, 11, 12] : List ℚ))).2.2.2.getD (j * 6 + 4) 0) ∧
     (binDecode 1 9 (4, 5, 1, [1, 2, 3, 4, 5, 6, 7, 8, 9, 10, 11, 12])).axy
       = (List.range 1).map (fun j =>
           (((4 : Int), (5 : Int), (1 : Int),
             ([1, 2, 3, 4, 5, 6, 7, 8, 9, 10, 11, 12] : List ℚ))).2.2.2.getD (j * 6 + 5) 0) ∧
     (binDecode 1 9 (4, 5, 1, [1, 2, 3, 4, 5, 6, 7, 8, 9, 10, 11, 12])).axx.length = 1) :=
  ⟨by decide,
   binary_loader_reads_full_block_keeps_window 2 1 9
     [(4, 5, 1, [1, 2, 3, 4, 5, 6, 7, 8, 9, 10, 11, 12])] [FTok.ival 77]
     (4, 5, 1, [1, 2, 3, 4, 5, 6, 7, 8, 9, 10, 11, 12]) (by decide)⟩

/-! Claim C5. -/

/-- C5: when the per-process sub-domain boxes are pairwise disjoint
(a gapless cover needs no further hypothesis for this), each catalog
node lying in the union of the sub-domains is owned by exactly one
process and a node outside all sub-domains by none; and each process's
owned set is exactly the in-order filtered catalog, so the union of the
owned sets reproduces exactly the catalog nodes inside the union of the
sub-domains, with no duplicates. -/
theorem disjoint_cover_owns_each_node_once
    (procs : List Bounds) (cat : List CatRec) (p : CatRec) (b : Bounds)
    (hdisj : procs.Pairwise
      (fun b1 b2 => ∀ n, ¬(inBoundsRec b1 n = true ∧ inBoundsRec b2 n = true))) :
    procs.countP (fun q => inBoundsRec q p)
      = (if procs.any (fun q => inBoundsRec q p) then 1 else 0) ∧
    copyOwned b cat = (cat.filter (fun n => inBoundsRec b n)).map (remap b) :=
  ⟨countP_owned_of_pairwise_disjoint procs p hdisj,
   copyOwned_eq_filter_map b cat⟩

/-- Two concrete adjacent, disjoint sub-domain boxes used to witness
C5. -/
def procsW : List Bounds :=
  [⟨1, 10, 1, 10, 1, 10⟩, ⟨11, 20, 1, 10, 1, 10⟩]

/-- Witness for C5: the two boxes of `procsW` are disjoint and the node
(5,5,5) is owned by exactly one of them. -/
theorem disjoint_cover_owns_each_node_once_witness :
    procsW.Pairwise
      (fun b1 b2 => ∀ n, ¬(inBoundsRec b1 n = true ∧ inBoundsRec b2 n = true)) ∧
    (procsW.countP (fun q => inBoundsRec q ⟨5, 5, 5, [], [], [], [], [], []⟩)
      = (if procsW.any (fun q => inBoundsRec q ⟨5, 5, 5, [], [], [], [], [], []⟩)
         then 1 else 0) ∧
     copyOwned ⟨1, 10, 1, 10, 1, 10⟩ [⟨5, 5, 5, [], [], [], [], [], []⟩]
       = ([(⟨5, 5, 5, [], [], [], [], [], []⟩ : CatRec)].filter
           (fun n => inBoundsRec ⟨1, 10, 1, 10, 1, 10⟩ n)).map
           (remap ⟨1, 10, 1, 10, 1, 10⟩)) := by
  have hd : procsW.Pairwise
      (fun b1 b2 => ∀ n, ¬(inBoundsRec b1 n = true ∧ inBoundsRec b2 n = true)) := by
    constructor
    · intro q hq n hcontra
      simp only [procsW, List.mem_singleton] at hq
      subst hq
      obtain ⟨h1, h2⟩ := hcontra
      rw [inBoundsRec_iff] at h1 h2
      simp only at h1 h2
      omega
    · simp [procsW]
  exact ⟨hd,
    disjoint_cover_owns_each_node_once procsW
      [⟨5, 5, 5, [], [], [], [], [], []⟩] ⟨5, 5, 5, [], [], [], [], [], []⟩
      ⟨1, 10, 1, 10, 1, 10⟩ hd⟩

/-! Early-exit behaviour of `inisource` (shared helpers). -/

theorem inisource_nsrc_lt_one (IFAULT NSRC : Int) (READ_STEP NST : Nat)
    (NZ rank : Int) (b : Bounds) (INSRC : String) (file : Option (List FTok))
    (hn : NSRC < 1) :
    inisource IFAULT NSRC READ_STEP NST NZ rank b INSRC file
      = some ⟨0, none, []⟩ := by
  simp [inisource, hn]

theorem inisource_open_fail (IFAULT NSRC : Int) (READ_STEP NST : Nat)
    (NZ rank : Int) (b : Bounds) (INSRC : String)
    (hI : IFAULT = 0 ∨ IFAULT = 1) (hn : 1 ≤ NSRC) :
    inisource IFAULT NSRC READ_STEP NST NZ rank b INSRC none
      = some ⟨0, none, [Diag.cantOpenFile INSRC]⟩ := by
  have hlt : ¬(NSRC < 1) := by omega
  rcases hI with h | h <;> subst h <;> norm_num [inisource, hlt]

/-! Claim C7. -/

/-- C7: for the unsupported mode `IFAULT=2` with a positive node count,
`inisource` emits the diagnostic naming the unimplemented path and
returns 1, a failure signal distinct from the 0 of a successful load,
writing none of the out-parameters (no catalog load, no ownership
resolution, no partial work). -/
theorem ifault2_fails_fast (NSRC : Int) (READ_STEP NST : Nat)
    (NZ rank : Int) (b : Bounds) (INSRC : String) (file : Option (List FTok))
    (hn : 1 ≤ NSRC) :
    inisource 2 NSRC READ_STEP NST NZ rank b INSRC file
      = some ⟨1, none, [Diag.ifault2NotImplemented]⟩ ∧ (1 : Int) ≠ 0 := by
  have hlt : ¬(NSRC < 1) := by omega
  refine ⟨?_, by norm_num⟩
  norm_num [inisource, hlt]

/-- Witness for C7 at `NSRC = 1`. -/
theorem ifault2_fails_fast_witness :
    (1 : Int) ≤ 1 ∧
    (inisource 2 1 4 8 9 3 ⟨1, 10, 1, 10, 1, 10⟩ "src" none
      = some ⟨1, none, [Diag.ifault2NotImplemented]⟩ ∧ (1 : Int) ≠ 0) :=
  ⟨by norm_num,
   ifault2_fails_fast 1 4 8 9 3 ⟨1, 10, 1, 10, 1, 10⟩ "src" none (by norm_num)⟩

/-! Claim C8 (corrected) and claims C9, C10. -/

/-- C8 counterexample: the file-open-failure path returns the same value
0 that a successful load returns, so the return value does not
distinguish the failure from a successful load; at the concrete input
(`IFAULT=0`, `NSRC=1`, `READ_STEP=0`, `NZ=9`, sub-domain `[1,10]^3`) the
failed-open call and the successful call have equal return values. -/
theorem open_failure_return_equals_success_return :
    (inisource 0 1 0 0 9 3 ⟨1, 10, 1, 10, 1, 10⟩ "missing" none).map IniRet.ret
      = (inisource 0 1 0 0 9 3 ⟨1, 10, 1, 10, 1, 10⟩ "src"
          (some [FTok.ival 5, FTok.ival 5, FTok.ival 5])).map IniRet.ret ∧
    inisource 0 1 0 0 9 3 ⟨1, 10, 1, 10, 1, 10⟩ "missing" none
      = some ⟨0, none, [Diag.cantOpenFile "missing"]⟩ ∧
    inisource 0 1 0 0 9 3 ⟨1, 10, 1, 10, 1, 10⟩ "src"
        (some [FTok.ival 5, FTok.ival 5, FTok.ival 5])
      = some ⟨0, some ⟨3, 1, [⟨5, 5, 5, [], [], [], [], [], []⟩]⟩, []⟩ := by
  refine ⟨?_, ?_, ?_⟩ <;> decide

/-- C8 (amended): if the source file cannot be opened (either supported
mode, positive node count), `inisource` emits the diagnostic identifying
the file and returns without crashing, reading no records and producing
no owned-record table; the return value is 0 — the same code a
successful load returns, so it does not by itself distinguish this
failure from success. -/
theorem open_failure_diag_zero_return (IFAULT NSRC : Int)
    (READ_STEP NST : Nat) (NZ rank : Int) (b : Bounds) (INSRC : String)
    (hI : IFAULT = 0 ∨ IFAULT = 1) (hn : 1 ≤ NSRC) :
    inisource IFAULT NSRC READ_STEP NST NZ rank b INSRC none
      = some ⟨0, none, [Diag.cantOpenFile INSRC]⟩ :=
  inisource_open_fail IFAULT NSRC READ_STEP NST NZ rank b INSRC hI hn

/-- Witness for the amended C8 in binary mode at `NSRC = 2`. -/
theorem open_failure_diag_zero_return_witness :
    ((1 : Int) = 0 ∨ (1 : Int) = 1) ∧ (1 : Int) ≤ 2 ∧
    inisource 1 2 4 8 9 3 ⟨1, 10, 1, 10, 1, 10⟩ "rupture.bin" none
      = some ⟨0, none, [Diag.cantOpenFile "rupture.bin"]⟩ :=
  ⟨Or.inr rfl, by norm_num,
   open_failure_diag_zero_return 1 2 4 8 9 3 ⟨1, 10, 1, 10, 1, 10⟩
     "rupture.bin" (Or.inr rfl) (by norm_num)⟩

/-- C9: if `NSRC < 1`, `inisource` returns success (0) immediately for
every file argument: it opens no file (the result does not depend on
`file`), prints nothing, writes none of the out-parameters, and mutates
no state. -/
theorem nsrc_below_one_immediate_success (IFAULT NSRC : Int)
    (READ_STEP NST : Nat) (NZ rank : Int) (b : Bounds) (INSRC : String)
    (file : Option (List FTok)) (hn : NSRC < 1) :
    inisource IFAULT NSRC READ_STEP NST NZ rank b INSRC file
      = some ⟨0, none, []⟩ :=
  inisource_nsrc_lt_one IFAULT NSRC READ_STEP NST NZ rank b INSRC file hn

/-- Witness for C9 at `NSRC = 0`. -/
theorem nsrc_below_one_immediate_success_witness :
    (0 : Int) < 1 ∧
    inisource 1 0 4 8 9 3 ⟨1, 10, 1, 10, 1, 10⟩ "src"
        (some [FTok.ival 5])
      = some ⟨0, none, []⟩ :=
  ⟨by norm_num,
   nsrc_below_one_immediate_success 1 0 4 8 9 3 ⟨1, 10, 1, 10, 1, 10⟩ "src"
     (some [FTok.ival 5]) (by norm_num)⟩

/-- C10: on both early-exit paths (`NSRC < 1`, and file-open failure in
a supported mode) `inisource` returns 0 — the same value as a successful
load — and writes none of its nine out-parameters, so the caller's
fields keep their previous values (`Sources.ofIni prev r = prev`) and
the caller cannot distinguish these outcomes from success by the return
value: a concrete successful load also returns 0 (and does write the
out-parameters). -/
theorem early_exits_return_zero_write_nothing (prev : Sources)
    (IFAULT1 NSRC1 IFAULT2 NSRC2 : Int) (READ_STEP NST : Nat)
    (NZ rank : Int) (b : Bounds) (INSRC : String) (file : Option (List FTok))
    (hn1 : NSRC1 < 1) (hI2 : IFAULT2 = 0 ∨ IFAULT2 = 1) (hn2 : 1 ≤ NSRC2) :
    (inisource IFAULT1 NSRC1 READ_STEP NST NZ rank b INSRC file).map
        (fun r => (r.ret, Sources.ofIni prev r)) = some (0, prev) ∧
    (inisource IFAULT2 NSRC2 READ_STEP NST NZ rank b INSRC none).map
        (fun r => (r.ret, Sources.ofIni prev r)) = some (0, prev) ∧
    (inisource 0 1 0 0 9 3 ⟨1, 10, 1, 10, 1, 10⟩ "src"
        (some [FTok.ival 5, FTok.ival 5, FTok.ival 5])).map
        (fun r => (r.ret, r.out.isSome)) = some (0, true) := by
  refine ⟨?_, ?_, by decide⟩
  · rw [inisource_nsrc_lt_one IFAULT1 NSRC1 READ_STEP NST NZ rank b INSRC file hn1]
    rfl
  · rw [inisource_open_fail IFAULT2 NSRC2 READ_STEP NST NZ rank b INSRC hI2 hn2]
    rfl

/-- Witness for C10 with concrete previous member values. -/
theorem early_exits_return_zero_write_nothing_witness :
    (0 : Int) < 1 ∧ ((0 : Int) = 0 ∨ (0 : Int) = 1) ∧ (1 : Int) ≤ 3 ∧
    ((inisource 2 0 4 8 9 3 ⟨1, 10, 1, 10, 1, 10⟩ "src" none).map
        (fun r => (r.ret, Sources.ofIni stW r)) = some (0, stW) ∧
     (inisource 0 3 4 8 9 3 ⟨1, 10, 1, 10, 1, 10⟩ "src" none).map
        (fun r => (r.ret, Sources.ofIni stW r)) = some (0, stW) ∧
     (inisource 0 1 0 0 9 3 ⟨1, 10, 1, 10, 1, 10⟩ "src"
        (some [FTok.ival 5, FTok.ival 5, FTok.ival 5])).map
        (fun r => (r.ret, r.out.isSome)) = some (0, true)) :=
  ⟨by norm_num, Or.inl rfl, by norm_num,
   early_exits_return_zero_write_nothing stW 2 0 0 3 4 8 9 3
     ⟨1, 10, 1, 10, 1, 10⟩ "src" none (by norm_num) (Or.inl rfl) (by norm_num)⟩

end AwpOdc
